import Mathlib

/-!
Shallow embedding of the cometbft ABCI service of beacon-kit
(mod/consensus/pkg/cometbft, file `types.go` of the state-transition core):
the block-lifecycle orchestrator sequencing
InitChain, PrepareProposal, ProcessProposal, FinalizeBlock and Commit,
its height validation, retention-height policy, query-context creation
and panic behaviour on a missing Finalize phase state.

Machine integers (`int64` heights, `uint64` retention config) are modelled
as `Int` / `Nat`; none of the verified properties approaches the overflow
boundary. Go errors are modelled as explicit error inductives; a Go `panic`
is a distinguished outcome constructor, never an error value. The external
Middleware is modelled by passing the result of its (single) invocation as
an explicit parameter.
-/

set_option linter.unnecessarySeqFocus false

deriving instance DecidableEq for Except

namespace BeaconKit

/-- A block header as seen by the service; only the height is relevant
to the orchestrator. -/
structure BlockHeader where
  height : Int
  deriving DecidableEq, Repr

/-- Modelled from the spec: a PhaseState is a branched, write-buffering view
over the versioned store scoped to one phase of one height (`resetState` in
the source, whose body is outside the excerpted core). Only its presence and
its block header are observable to the claims. -/
structure PhaseState where
  header : BlockHeader
  deriving DecidableEq, Repr

/-- Evidence consensus parameters (`cp.Evidence`), carrying
`MaxAgeNumBlocks`. -/
structure EvidenceParams where
  maxAgeNumBlocks : Int
  deriving DecidableEq, Repr

/-- Consensus parameters returned by `s.paramStore.Get()`; `evidence = none`
models a nil `cp.Evidence`. -/
structure ConsensusParams where
  evidence : Option EvidenceParams
  deriving DecidableEq, Repr

/-- Modelled from the spec: the external versioned store
(`s.sm.CommitMultiStore()`): `latestVersion` is the committed version
counter (`LatestVersion` / `LastCommitID().Version`), `initialVersion` the
value set by `SetInitialVersion`, `workingHashVal` the content hash of the
buffered working layer (`WorkingHash`), and `available v` tells whether
`CacheMultiStoreWithVersion v` succeeds (the version is committed and not
pruned). -/
structure CommitMultiStore where
  latestVersion : Int
  initialVersion : Int
  workingHashVal : List Nat
  available : Int → Bool

/-- A validator update as exchanged with the consensus engine
(`cmtabci.ValidatorUpdate`): voting power, public key bytes and key type. -/
structure ValidatorUpdate where
  power : Int
  pubKeyBytes : List Nat
  pubKeyType : String
  deriving DecidableEq, Repr

/-- The ABCI service state (`Service`): chain identity, working initial
height, retention configuration, the three live PhaseState slots, the
store handle and the consensus-parameter store. -/
structure Service where
  chainID : String
  initialHeight : Int
  minRetainBlocks : Nat
  finalizeBlockState : Option PhaseState
  prepareProposalState : Option PhaseState
  processProposalState : Option PhaseState
  sm : CommitMultiStore
  paramStore : ConsensusParams

/-- Modelled from the spec: `s.LastBlockHeight()` (defined outside the
excerpted core) returns the last committed height, i.e. the store's
committed version counter. -/
def Service.LastBlockHeight (s : Service) : Int :=
  s.sm.latestVersion

/-- Modelled from the spec: `s.resetState()` (defined outside the excerpted
core) creates a fresh PhaseState branched from the current store; its header
is unset (zero) until the phase populates it. -/
def Service.resetState (_s : Service) : PhaseState :=
  { header := { height := 0 } }

/-! ## Height validation for FinalizeBlock (`validateFinalizeBlockHeight`) -/

/-- Errors returned by `validateFinalizeBlockHeight`: the
`errInvalidHeight`-wrapped error for heights below 1, and the
"invalid height: %d; expected: %d" mismatch error. -/
inductive FinalizeHeightError where
  | invalidHeight (h : Int)
  | heightMismatch (got expected : Int)
  deriving DecidableEq, Repr

/-- `validateFinalizeBlockHeight`: reject heights below 1; otherwise the
expected height is `initialHeight` when nothing has been committed and
`initialHeight > 1`, else `lastBlockHeight + 1`; reject any other height. -/
def Service.validateFinalizeBlockHeight (s : Service) (reqHeight : Int) :
    Except FinalizeHeightError Unit :=
  if reqHeight < 1 then
    .error (.invalidHeight reqHeight)
  else
    let lastBlockHeight := s.LastBlockHeight
    let expectedHeight :=
      if lastBlockHeight = 0 ∧ 1 < s.initialHeight then s.initialHeight
      else lastBlockHeight + 1
    if reqHeight ≠ expectedHeight then
      .error (.heightMismatch reqHeight expectedHeight)
    else
      .ok ()

/-! ## Retention policy (`GetBlockRetentionHeight`) -/

/-- The local `minNonZero` closure of `GetBlockRetentionHeight`: a zero
operand is treated as absent, otherwise the arithmetic minimum is taken. -/
def minNonZero (x y : Int) : Int :=
  if x = 0 then y
  else if y = 0 then x
  else if x < y then x
  else y

/-- `GetBlockRetentionHeight`: 0 when `minRetainBlocks` is 0; 0 when the
Finalize PhaseState slot is nil; otherwise the smallest-non-zero combination
of the evidence candidate `commitHeight - MaxAgeNumBlocks` (set only when
the evidence parameters are present with a positive max age) and
`commitHeight - minRetainBlocks`, clamped to 0 when non-positive. -/
def Service.GetBlockRetentionHeight (s : Service) (commitHeight : Int) : Int :=
  if s.minRetainBlocks = 0 then 0
  else if s.finalizeBlockState = none then 0
  else
    let retentionHeight : Int :=
      match s.paramStore.evidence with
      | some ev => if 0 < ev.maxAgeNumBlocks then commitHeight - ev.maxAgeNumBlocks else 0
      | none => 0
    let v : Int := commitHeight - (s.minRetainBlocks : Int)
    let retentionHeight := minNonZero retentionHeight v
    if retentionHeight ≤ 0 then 0 else retentionHeight

/-- The retention policy as the spec words it (for comparison with
`GetBlockRetentionHeight`): pruning disabled when `minRetain = 0`; two floor
candidates, the evidence one present only when `evidenceMaxAge > 0`; a zero
candidate treated as absent; arithmetic minimum of the present candidates;
non-positive results clamped to 0. -/
def specRetentionHeight (commitHeight evidenceMaxAge : Int) (minRetain : Nat) : Int :=
  if minRetain = 0 then 0
  else
    let cands := (if 0 < evidenceMaxAge then [commitHeight - evidenceMaxAge] else [])
      ++ [commitHeight - (minRetain : Int)]
    let present := cands.filter (fun c => c ≠ 0)
    let r :=
      match present with
      | [] => 0
      | x :: xs => xs.foldl min x
    if r ≤ 0 then 0 else r

/-! ## Query contexts (`CreateQueryContext`) -/

/-- Errors of `CreateQueryContext`: not ready before the first commit,
future heights, proof requests at heights at most 1, and a version the
store cannot load. -/
inductive QueryError where
  | notReady
  | futureHeight
  | invalidProofHeight
  | versionNotFound (v : Int)
  deriving DecidableEq, Repr

/-- `CreateQueryContext`: fail `notReady` when nothing was ever committed;
fail `futureHeight` when the requested height exceeds the latest version;
resolve the 0 sentinel to the latest version; fail `invalidProofHeight`
when the resolved height is at most 1 and a proof is requested; otherwise
open a view at the resolved height (`CacheMultiStoreWithVersion`), failing
`versionNotFound` when the store cannot load it. The opened view is
represented by its version. -/
def Service.CreateQueryContext (s : Service) (height : Int) (prove : Bool) :
    Except QueryError Int :=
  let lastBlockHeight := s.sm.latestVersion
  if lastBlockHeight = 0 then .error .notReady
  else if lastBlockHeight < height then .error .futureHeight
  else
    let height := if height = 0 then lastBlockHeight else height
    if height ≤ 1 ∧ prove then .error .invalidProofHeight
    else if s.sm.available height then .ok height
    else .error (.versionNotFound height)

/-! ## Proposal phases (`PrepareProposal`, `ProcessProposal`) -/

/-- The outcome of `getContextForProposal`: the derived context (whose
content is irrelevant to the claims) or the nilaway-appeasing panic when
the Finalize state is nil at the initial height. -/
inductive CtxOutcome where
  | ok
  | panicked (msg : String)
  deriving DecidableEq, Repr

/-- `getContextForProposal`: for any height other than the initial height
the caller's context is used as-is; at the initial height a branch of the
retained Finalize context is taken, and a nil Finalize state panics. -/
def Service.getContextForProposal (s : Service) (height : Int) : CtxOutcome :=
  if height ≠ s.initialHeight then .ok
  else
    match s.finalizeBlockState with
    | none => .panicked "getContextForProposal: finalizeBlockState is nil"
    | some _ => .ok

/-- A `PrepareProposalRequest`: the height and the raw transactions, each a
byte string. -/
structure PrepareProposalRequest where
  height : Int
  txs : List (List Nat)
  deriving DecidableEq, Repr

/-- The outcome of `PrepareProposal`: a successful response carrying the
proposal transactions, a returned error, or a process panic. -/
inductive PrepareOutcome where
  | response (txs : List (List Nat))
  | failure (e : FinalizeHeightError)
  | panicked (msg : String)
  deriving DecidableEq, Repr

/-- `PrepareProposal`: fail on heights below 1; reset the Prepare
PhaseState; derive the proposal context (panics at the initial height with
a nil Finalize state); delegate to the Middleware, whose invocation result
is the parameter `mw` as `(blkBz, sidecarsBz)`. On Middleware failure the
call logs and answers with the unmodified request transactions; on success
it answers with the two Middleware-built byte strings. -/
def Service.PrepareProposal (s : Service) (req : PrepareProposalRequest)
    (mw : Except String (List Nat × List Nat)) : PrepareOutcome :=
  if req.height < 1 then .failure (.invalidHeight req.height)
  else
    let s := { s with prepareProposalState := some s.resetState }
    match s.getContextForProposal req.height with
    | .panicked m => .panicked m
    | .ok =>
      match mw with
      | .error _ => .response req.txs
      | .ok (blkBz, sidecarsBz) => .response [blkBz, sidecarsBz]

/-- A `ProcessProposalRequest`: only the height is inspected by the
orchestrator; the proposal content goes to the Middleware opaquely. -/
structure ProcessProposalRequest where
  height : Int
  txs : List (List Nat)
  deriving DecidableEq, Repr

/-- A process-proposal decision (`ProcessProposalResponse.Status`). -/
inductive ProposalStatus where
  | accept
  | reject
  deriving DecidableEq, Repr

/-- The outcome of `ProcessProposal`: a decision response, a returned
error, or a process panic. -/
inductive ProcessOutcome where
  | response (status : ProposalStatus)
  | failure (e : FinalizeHeightError)
  | panicked (msg : String)
  deriving DecidableEq, Repr

/-- The two state resets at the head of `ProcessProposal`: the Process
PhaseState is always recreated, and the Finalize PhaseState is recreated
when the height is past the initial height. -/
def Service.processResets (s : Service) (height : Int) : Service :=
  let s := { s with processProposalState := some s.resetState }
  if s.initialHeight < height then
    { s with finalizeBlockState := some s.resetState }
  else s

/-- `ProcessProposal`: fail on heights below 1; reset the Process
PhaseState, and also the Finalize PhaseState when the height is past the
initial height (`processResets`); derive the proposal context (panics at
the initial height with a nil Finalize state); delegate to the Middleware,
whose invocation result is the parameter `mw`. A Middleware error yields a
reject response; a Middleware decision is returned as-is. -/
def Service.ProcessProposal (s : Service) (req : ProcessProposalRequest)
    (mw : Except String ProposalStatus) : ProcessOutcome :=
  if req.height < 1 then .failure (.invalidHeight req.height)
  else
    match (s.processResets req.height).getContextForProposal req.height with
    | .panicked m => .panicked m
    | .ok =>
      match mw with
      | .error _ => .response .reject
      | .ok status => .response status

/-! ## InitChain -/

/-- Byte-string order used by the canonical validator sort. -/
def bytesLe : List Nat → List Nat → Bool
  | [], _ => true
  | _ :: _, [] => false
  | a :: as, b :: bs => if a < b then true else if b < a then false else bytesLe as bs

/-- Insert one validator update into a sorted list, ordered by public key
bytes. -/
def insertVal (a : ValidatorUpdate) : List ValidatorUpdate → List ValidatorUpdate
  | [] => [a]
  | b :: bs => if bytesLe a.pubKeyBytes b.pubKeyBytes then a :: b :: bs else b :: insertVal a bs

/-- Modelled from the spec: the canonical sort applied to the supplied
validator updates (`sort.Sort(cmtabci.ValidatorUpdates(req.Validators))`,
whose ordering lives outside the excerpted core), here insertion sort by
public key bytes. The claims do not depend on which total order is used. -/
def sortValidators : List ValidatorUpdate → List ValidatorUpdate
  | [] => []
  | a :: as => insertVal a (sortValidators as)

/-- Errors returned by `InitChain`: chain-id mismatch, a failed genesis
initialization, and the three element-wise validator mismatches plus the
count mismatch. -/
inductive InitChainError where
  | chainMismatch (expected got : String)
  | genesisFailure (msg : String)
  | validatorCountMismatch (got expected : Nat)
  | mismatchedPower
  | mismatchedPubKeyBytes
  | mismatchedPubKeyTypes
  deriving DecidableEq, Repr

/-- The element-wise comparison loop of `InitChain` over the (sorted)
request validators and the genesis-computed validators: at each index the
power, then the public key bytes, then the key type are compared, and the
first mismatch is returned. -/
def firstValidatorMismatch :
    List ValidatorUpdate → List ValidatorUpdate → Option InitChainError
  | a :: as, b :: bs =>
    if a.power ≠ b.power then some .mismatchedPower
    else if a.pubKeyBytes ≠ b.pubKeyBytes then some .mismatchedPubKeyBytes
    else if a.pubKeyType ≠ b.pubKeyType then some .mismatchedPubKeyTypes
    else firstValidatorMismatch as bs
  | _, _ => none

/-- The validator cross-check of `InitChain`: skipped for an empty request
set; otherwise the counts must match and the canonically sorted request
set must agree element-wise with the genesis-computed set. -/
def checkValidators (reqVals resVals : List ValidatorUpdate) : Option InitChainError :=
  if reqVals.length = 0 then none
  else if reqVals.length ≠ resVals.length then
    some (.validatorCountMismatch reqVals.length resVals.length)
  else firstValidatorMismatch (sortValidators reqVals) resVals

/-- An `InitChainRequest`: chain id, initial height, the externally
expected validator set and the opaque genesis app state. -/
structure InitChainRequest where
  chainId : String
  initialHeight : Int
  validators : List ValidatorUpdate
  appStateBytes : List Nat
  deriving DecidableEq, Repr

/-- `InitChain`: check the chain id; record the working initial height
(0 defaults to 1); give the store its initial version when the requested
initial height is past 1; create a fresh Finalize PhaseState; run the
genesis initializer (its Middleware invocation result is the parameter
`mwGenesis`); cross-check a non-empty expected validator set; answer with
the genesis-computed validators. The updated service is returned alongside
the result, also on failure, mirroring the receiver mutation in the
source. -/
def Service.InitChain (s : Service) (req : InitChainRequest)
    (mwGenesis : Except String (List ValidatorUpdate)) :
    Except InitChainError (List ValidatorUpdate) × Service :=
  if req.chainId ≠ s.chainID then
    (.error (.chainMismatch s.chainID req.chainId), s)
  else
    let s := { s with initialHeight := if req.initialHeight = 0 then 1 else req.initialHeight }
    let s :=
      if 1 < req.initialHeight then
        { s with sm := { s.sm with initialVersion := req.initialHeight } }
      else s
    let s := { s with finalizeBlockState := some s.resetState }
    match mwGenesis with
    | .error m => (.error (.genesisFailure m), s)
    | .ok resValidators =>
      match checkValidators req.validators resValidators with
      | some e => (.error e, s)
      | none => (.ok resValidators, s)

/-! ## FinalizeBlock -/

/-- A per-transaction execution result (`cmtabci.ExecTxResult`). -/
structure ExecTxResult where
  codespace : String
  code : Nat
  log : String
  gasWanted : Int
  gasUsed : Int
  deriving DecidableEq, Repr

/-- The constant "skip decoding" result recorded for every raw transaction
of a finalized block. -/
def skipTxResult : ExecTxResult :=
  { codespace := "sdk", code := 2, log := "skip decoding", gasWanted := 0, gasUsed := 0 }

/-- A `FinalizeBlockRequest`: the height and the raw transactions. -/
structure FinalizeBlockRequest where
  height : Int
  txs : List (List Nat)
  deriving DecidableEq, Repr

/-- A `FinalizeBlockResponse`: one execution result per raw transaction,
the validator updates, the consensus-parameter updates and the app hash. -/
structure FinalizeBlockResponse where
  txResults : List ExecTxResult
  validatorUpdates : List ValidatorUpdate
  consensusParamUpdates : ConsensusParams
  appHash : List Nat
  deriving DecidableEq, Repr

/-- Errors of `FinalizeBlock`: a failed height validation, or a Middleware
(or validator-update conversion) failure, which is propagated. -/
inductive FinalizeError where
  | heightError (e : FinalizeHeightError)
  | middlewareFailure (msg : String)
  deriving DecidableEq, Repr

/-- `internalFinalizeBlock`: validate the height; recreate a nil Finalize
PhaseState (block-replay path); record one "skip decoding" result per raw
transaction; delegate block application to the Middleware (its invocation
result is the parameter `mwFin`, covering the validator-update conversion),
propagating its failure; assemble the response (the app hash is attached by
the `FinalizeBlock` wrapper). The threaded service is returned alongside. -/
def Service.internalFinalizeBlock (s : Service) (req : FinalizeBlockRequest)
    (mwFin : Except String (List ValidatorUpdate)) :
    Except FinalizeError FinalizeBlockResponse × Service :=
  match s.validateFinalizeBlockHeight req.height with
  | .error e => (.error (.heightError e), s)
  | .ok _ =>
    let s :=
      if s.finalizeBlockState = none then
        { s with finalizeBlockState := some s.resetState }
      else s
    let txResults := req.txs.map (fun _ => skipTxResult)
    match mwFin with
    | .error m => (.error (.middlewareFailure m), s)
    | .ok valUpdates =>
      (.ok { txResults := txResults, validatorUpdates := valUpdates,
             consensusParamUpdates := s.paramStore, appHash := [] }, s)

/-- The outcome of `workingHash`: the store's working hash, or a process
panic when the Finalize PhaseState is nil. -/
inductive HashOutcome where
  | ok (h : List Nat)
  | panicked (msg : String)
  deriving DecidableEq, Repr

/-- `workingHash`: panic when the Finalize PhaseState is nil; otherwise
write its buffered state into the root store and return the store's
working hash. -/
def Service.workingHash (s : Service) : HashOutcome :=
  if s.finalizeBlockState = none then
    .panicked "workingHash: finalizeBlockState is nil"
  else .ok s.sm.workingHashVal

/-- The outcome of `FinalizeBlock`: a full response, a returned error, or
a process panic surfaced from `workingHash`. -/
inductive FinalizeOutcome where
  | ok (resp : FinalizeBlockResponse)
  | failure (e : FinalizeError)
  | panicked (msg : String)
  deriving DecidableEq, Repr

/-- `FinalizeBlock`: run `internalFinalizeBlock` and, when it produced a
response, attach the app hash computed by `workingHash` on the threaded
state. -/
def Service.FinalizeBlock (s : Service) (req : FinalizeBlockRequest)
    (mwFin : Except String (List ValidatorUpdate)) : FinalizeOutcome :=
  match s.internalFinalizeBlock req mwFin with
  | (.error e, _) => .failure e
  | (.ok resp, s') =>
    match s'.workingHash with
    | .panicked m => .panicked m
    | .ok h => .ok { resp with appHash := h }

/-! ## Commit -/

/-- Modelled from the spec: the store's durable commit advances the
committed version counter by exactly 1, except that the first commit of a
store given an initial version past 1 lands on that initial version. -/
def commitStore (m : CommitMultiStore) : CommitMultiStore :=
  { m with latestVersion :=
      if m.latestVersion = 0 ∧ 1 < m.initialVersion then m.initialVersion
      else m.latestVersion + 1 }

/-- The outcome of `Commit`: the retention height together with the updated
service, or a process panic when the Finalize PhaseState is nil. -/
inductive CommitOutcome where
  | ok (retainHeight : Int) (s' : Service)
  | panicked (msg : String)

/-- `Commit`: panic when the Finalize PhaseState is nil; otherwise compute
the retention height at the finalized header's height, commit the store,
clear the Finalize PhaseState slot and answer with the retention height. -/
def Service.Commit (s : Service) : CommitOutcome :=
  match s.finalizeBlockState with
  | none => .panicked "commit: finalizeBlockState is nil"
  | some ps =>
    let retainHeight := s.GetBlockRetentionHeight ps.header.height
    .ok retainHeight { s with sm := commitStore s.sm, finalizeBlockState := none }

/-! ## Concrete fixtures used by witnesses and counterexamples -/

/-- A store with committed versions 1 through 5. -/
def store5 : CommitMultiStore :=
  { latestVersion := 5, initialVersion := 0, workingHashVal := [7, 7],
    available := fun v => decide (1 ≤ v ∧ v ≤ 5) }

/-- A store that never committed anything. -/
def store0 : CommitMultiStore :=
  { latestVersion := 0, initialVersion := 0, workingHashVal := [],
    available := fun _ => false }

/-- A service over `store5` with an empty Finalize slot. -/
def qcSvc5 : Service :=
  { chainID := "beacon-2061", initialHeight := 1, minRetainBlocks := 0,
    finalizeBlockState := none, prepareProposalState := none,
    processProposalState := none, sm := store5,
    paramStore := { evidence := none } }

/-- A service with a live Finalize PhaseState, evidence max age `e` and
retention configuration `m`, over `store5`. -/
def retSvc (e : Int) (m : Nat) : Service :=
  { chainID := "beacon-2061", initialHeight := 1, minRetainBlocks := m,
    finalizeBlockState := some { header := { height := 0 } },
    prepareProposalState := none, processProposalState := none,
    sm := store5, paramStore := { evidence := some { maxAgeNumBlocks := e } } }

/-- A service over `store5` with a live Finalize PhaseState and no
evidence parameters. -/
def liveSvc5 : Service :=
  { qcSvc5 with finalizeBlockState := some { header := { height := 5 } } }

/-- A fresh pre-genesis service over `store0`. -/
def freshSvc : Service :=
  { chainID := "beacon-2061", initialHeight := 1, minRetainBlocks := 0,
    finalizeBlockState := none, prepareProposalState := none,
    processProposalState := none, sm := store0,
    paramStore := { evidence := none } }

/-! ## Theorems -/

/-- C9: invoking Commit when no Finalize PhaseState exists, or computing
the working hash without a live Finalize state, terminates the process
(panics) rather than returning an error value; Commit never silently
succeeds in that situation. -/
theorem c9_commit_without_finalize_panics (s : Service)
    (hnil : s.finalizeBlockState = none) :
    s.Commit = .panicked "commit: finalizeBlockState is nil" ∧
    s.workingHash = .panicked "workingHash: finalizeBlockState is nil" ∧
    ∀ (r : Int) (t : Service), s.Commit ≠ .ok r t := by
  refine ⟨?_, ?_, ?_⟩
  · simp [Service.Commit, hnil]
  · simp [Service.workingHash, hnil]
  · intro r t
    simp [Service.Commit, hnil]

/-- Witness for C9 at a concrete pre-genesis service. -/
theorem c9_commit_without_finalize_panics_witness :
    freshSvc.Commit = .panicked "commit: finalizeBlockState is nil" ∧
    freshSvc.workingHash = .panicked "workingHash: finalizeBlockState is nil" :=
  ⟨(c9_commit_without_finalize_panics freshSvc rfl).1,
   (c9_commit_without_finalize_panics freshSvc rfl).2.1⟩

/-- C10: with a nil Finalize PhaseState slot the retention computation
returns 0 even when `minRetainBlocks` and the evidence parameters are
non-zero, so the retention height additionally depends on the presence of
the live Finalize state. -/
theorem c10_retention_depends_on_finalize_state :
    (∀ (s : Service) (c : Int), s.finalizeBlockState = none →
      s.GetBlockRetentionHeight c = 0) ∧
    (retSvc 50 20).minRetainBlocks ≠ 0 ∧
    (retSvc 50 20).GetBlockRetentionHeight 100 = 50 ∧
    ({ retSvc 50 20 with finalizeBlockState := none }).GetBlockRetentionHeight 100 = 0 := by
  refine ⟨?_, by decide, by decide, by decide⟩
  intro s c hnil
  simp [Service.GetBlockRetentionHeight, hnil]

/-- Witness for C10's universal part at a concrete service. -/
theorem c10_retention_depends_on_finalize_state_witness :
    ({ retSvc 50 20 with finalizeBlockState := none }).GetBlockRetentionHeight 100 = 0 :=
  c10_retention_depends_on_finalize_state.1
    { retSvc 50 20 with finalizeBlockState := none } 100 rfl

/-- Characterization of `validateFinalizeBlockHeight`: it accepts exactly
the expected height computed by the source-side formula. -/
theorem validateFinalizeBlockHeight_ok_iff (s : Service) (h : Int) :
    s.validateFinalizeBlockHeight h = .ok () ↔
      (1 ≤ h ∧ h = (if s.LastBlockHeight = 0 ∧ 1 < s.initialHeight
                    then s.initialHeight else s.LastBlockHeight + 1)) := by
  unfold Service.validateFinalizeBlockHeight
  split_ifs with h1 h2 h3 <;> simp_all <;> omega

/-- C1: FinalizeBlock's height validation fails with InvalidHeight below 1,
otherwise fails with HeightMismatch unless the height equals the expected
next height: `initialHeight` when the last committed height is 0 and
`lastCommittedHeight + 1` otherwise (given the working initial height is at
least 1, as InitChain establishes); after a commit at height `h ≥ 1`, only
`h + 1` passes. -/
theorem c1_finalize_height_validation (s : Service) (h : Int)
    (hinit : 1 ≤ s.initialHeight) :
    (h < 1 → s.validateFinalizeBlockHeight h = .error (.invalidHeight h)) ∧
    (1 ≤ h →
      (s.validateFinalizeBlockHeight h = .ok () ↔
        h = (if s.LastBlockHeight = 0 then s.initialHeight else s.LastBlockHeight + 1))) ∧
    (1 ≤ h → h ≠ (if s.LastBlockHeight = 0 then s.initialHeight else s.LastBlockHeight + 1) →
      ∃ expected, s.validateFinalizeBlockHeight h = .error (.heightMismatch h expected)) ∧
    (1 ≤ s.LastBlockHeight →
      ∀ h2, (s.validateFinalizeBlockHeight h2 = .ok () ↔ h2 = s.LastBlockHeight + 1)) := by
  have hexp : (if s.LastBlockHeight = 0 ∧ 1 < s.initialHeight
      then s.initialHeight else s.LastBlockHeight + 1) =
      (if s.LastBlockHeight = 0 then s.initialHeight else s.LastBlockHeight + 1) := by
    split_ifs <;> omega
  refine ⟨?_, ?_, ?_, ?_⟩
  · intro hlt
    unfold Service.validateFinalizeBlockHeight
    simp [hlt]
  · intro hge
    rw [validateFinalizeBlockHeight_ok_iff, hexp]
    constructor
    · exact fun hc => hc.2
    · exact fun hc => ⟨hge, hc⟩
  · intro hge hne
    refine ⟨if s.LastBlockHeight = 0 ∧ 1 < s.initialHeight
      then s.initialHeight else s.LastBlockHeight + 1, ?_⟩
    unfold Service.validateFinalizeBlockHeight
    rw [if_neg (by omega)]
    rw [if_pos]
    rw [hexp]
    exact hne
  · intro hlast h2
    rw [validateFinalizeBlockHeight_ok_iff]
    constructor
    · intro hc
      rw [hc.2]
      rw [if_neg (by omega)]
    · intro hc
      rw [if_neg (by omega)]
      omega

/-- Witness for C1 at a service whose last committed height is 5: height 6
passes, height 5 fails with a mismatch, height 0 fails as invalid. -/
theorem c1_finalize_height_validation_witness :
    qcSvc5.validateFinalizeBlockHeight 6 = .ok () ∧
    qcSvc5.validateFinalizeBlockHeight 0 = .error (.invalidHeight 0) ∧
    (∃ expected, qcSvc5.validateFinalizeBlockHeight 5 =
      .error (.heightMismatch 5 expected)) :=
  ⟨((c1_finalize_height_validation qcSvc5 6 (by decide)).2.2.2 (by decide) 6).mpr (by decide),
   (c1_finalize_height_validation qcSvc5 0 (by decide)).1 (by decide),
   (c1_finalize_height_validation qcSvc5 5 (by decide)).2.2.1 (by decide) (by decide)⟩

/-- C2: with a live Finalize state and evidence parameters present, the
retention computation agrees with the spec-worded policy (zero
`minRetainBlocks` disables pruning; candidates `commitHeight - evidence`
only when the evidence age is positive and `commitHeight - minRetain`;
zero candidates absent; arithmetic minimum; non-positive results clamped
to 0), and takes the spec's four example values. -/
theorem c2_retention_policy (s : Service) (ps : PhaseState) (e c : Int)
    (hfin : s.finalizeBlockState = some ps)
    (hev : s.paramStore.evidence = some { maxAgeNumBlocks := e }) :
    s.GetBlockRetentionHeight c = specRetentionHeight c e s.minRetainBlocks ∧
    (retSvc 50 0).GetBlockRetentionHeight 100 = 0 ∧
    (retSvc 0 20).GetBlockRetentionHeight 100 = 80 ∧
    (retSvc 50 20).GetBlockRetentionHeight 100 = 50 ∧
    (retSvc 50 20).GetBlockRetentionHeight 10 = 0 := by
  refine ⟨?_, by decide, by decide, by decide, by decide⟩
  unfold Service.GetBlockRetentionHeight specRetentionHeight
  simp only [hev, hfin, minNonZero]
  by_cases hm : s.minRetainBlocks = 0 <;>
    by_cases he : (0:Int) < e <;>
      by_cases hce : c - e = 0 <;>
        by_cases hcm : c - (s.minRetainBlocks : Int) = 0 <;>
          simp [hm, he, hce, hcm] <;> (try split_ifs) <;> (try simp_all) <;> omega

/-- Witness for C2 at concrete parameters. -/
theorem c2_retention_policy_witness :
    (retSvc 50 20).GetBlockRetentionHeight 100 = specRetentionHeight 100 50 20 :=
  (c2_retention_policy (retSvc 50 20) { header := { height := 0 } } 50 100 rfl rfl).1

/-- C3 counterexample: after committing heights 1..5, a proof-requiring
query at the sentinel height 0 — a height ≤ 1 — resolves to height 5 and
succeeds instead of failing with InvalidProofHeight; the claim is false as
stated. -/
theorem c3_counterexample_sentinel_with_proof :
    qcSvc5.CreateQueryContext 0 true = .ok 5 ∧
    qcSvc5.CreateQueryContext 0 true ≠ .error .invalidProofHeight := by
  refine ⟨by decide, by decide⟩

/-- C3 (amended): once at least one block has been committed and the
requested height does not exceed the last committed height, a
proof-requiring query fails with InvalidProofHeight exactly when the
resolved height — the last committed height for the 0 sentinel, the
requested height otherwise — is at most 1. -/
theorem c3_amended_proof_height_check (s : Service) (h : Int)
    (hready : 1 ≤ s.sm.latestVersion) (hle : h ≤ s.sm.latestVersion) :
    (s.CreateQueryContext h true = .error .invalidProofHeight ↔
      (if h = 0 then s.sm.latestVersion else h) ≤ 1) := by
  unfold Service.CreateQueryContext
  rw [if_neg (by omega), if_neg (by omega)]
  by_cases h0 : h = 0 <;> simp only [h0, if_true, if_false, reduceIte] <;>
    split_ifs <;> simp_all

/-- Witness for the amended C3: a proof-requiring query at height 1 after
five commits fails with InvalidProofHeight. -/
theorem c3_amended_proof_height_check_witness :
    qcSvc5.CreateQueryContext 1 true = .error .invalidProofHeight :=
  (c3_amended_proof_height_check qcSvc5 1 (by decide) (by decide)).mpr (by decide)

/-- C4: a proof-less query fails NotReady before any commit and
FutureHeight past the last committed height; the 0 sentinel resolves to
the last committed height before the store lookup, so after commits 1..5
it opens a view at height 5. -/
theorem c4_query_context_resolution (s : Service) (h : Int) :
    (s.sm.latestVersion = 0 → s.CreateQueryContext h false = .error .notReady) ∧
    (s.sm.latestVersion ≠ 0 → s.sm.latestVersion < h →
      s.CreateQueryContext h false = .error .futureHeight) ∧
    (1 ≤ s.sm.latestVersion →
      s.CreateQueryContext 0 false = s.CreateQueryContext s.sm.latestVersion false) ∧
    qcSvc5.CreateQueryContext 0 false = .ok 5 := by
  refine ⟨?_, ?_, ?_, by decide⟩
  · intro h0
    unfold Service.CreateQueryContext
    simp [h0]
  · intro h0 hfut
    unfold Service.CreateQueryContext
    rw [if_neg h0, if_pos hfut]
  · intro h1
    have hne : ¬ s.sm.latestVersion = 0 := by omega
    have hnf : ¬ s.sm.latestVersion < s.sm.latestVersion := by omega
    have hnl : ¬ s.sm.latestVersion < (0:Int) := by omega
    unfold Service.CreateQueryContext
    simp [hne, hnf, hnl]

/-- Witness for C4 at concrete services: NotReady before genesis and
FutureHeight past the tip. -/
theorem c4_query_context_resolution_witness :
    freshSvc.CreateQueryContext 3 false = .error .notReady ∧
    qcSvc5.CreateQueryContext 6 false = .error .futureHeight ∧
    qcSvc5.CreateQueryContext 0 false = qcSvc5.CreateQueryContext 5 false :=
  ⟨(c4_query_context_resolution freshSvc 3).1 (by decide),
   (c4_query_context_resolution qcSvc5 6).2.1 (by decide) (by decide),
   (c4_query_context_resolution qcSvc5 6).2.2.1 (by decide)⟩

/-- `getContextForProposal` yields a context (no panic) whenever the
Finalize PhaseState is live or the height is not the initial height. -/
theorem getContextForProposal_ok (t : Service) (h : Int)
    (hc : t.finalizeBlockState ≠ none ∨ h ≠ t.initialHeight) :
    t.getContextForProposal h = .ok := by
  unfold Service.getContextForProposal
  split
  · rfl
  · cases hfs : t.finalizeBlockState with
    | none =>
      rcases hc with hf | hne
      · exact absurd hfs hf
      · simp_all
    | some ps => simp [hfs]

/-- C5: for heights at least 1 (and a context derivable without the
initial-height nil-Finalize panic), a Middleware failure during proposal
construction does not fail the call: the response carries the unmodified
request transactions; a Middleware success carries the built payload. -/
theorem c5_prepare_graceful_degradation (s : Service)
    (req : PrepareProposalRequest) (mw : Except String (List Nat × List Nat))
    (hh : 1 ≤ req.height)
    (hctx : s.finalizeBlockState ≠ none ∨ req.height ≠ s.initialHeight) :
    (∀ e, mw = .error e → s.PrepareProposal req mw = .response req.txs) ∧
    (∀ blkBz sidecarsBz, mw = .ok (blkBz, sidecarsBz) →
      s.PrepareProposal req mw = .response [blkBz, sidecarsBz]) := by
  have hlt : ¬ req.height < 1 := by omega
  have hgc := getContextForProposal_ok
    { s with prepareProposalState := some s.resetState } req.height
    (by simpa using hctx)
  refine ⟨?_, ?_⟩
  · intro e he
    simp [Service.PrepareProposal, hlt, hgc, he]
  · intro blkBz sidecarsBz hbs
    simp [Service.PrepareProposal, hlt, hgc, hbs]

/-- Witness for C5: a failing Middleware leaves the two request
transactions untouched; a succeeding one replaces them. -/
theorem c5_prepare_graceful_degradation_witness :
    liveSvc5.PrepareProposal { height := 6, txs := [[1], [2]] } (.error "boom") =
      .response [[1], [2]] ∧
    liveSvc5.PrepareProposal { height := 6, txs := [[1], [2]] } (.ok ([9], [8])) =
      .response [[9], [8]] :=
  ⟨(c5_prepare_graceful_degradation liveSvc5 { height := 6, txs := [[1], [2]] }
      (.error "boom") (by decide) (.inl (by decide))).1 "boom" rfl,
   (c5_prepare_graceful_degradation liveSvc5 { height := 6, txs := [[1], [2]] }
      (.ok ([9], [8])) (by decide) (.inl (by decide))).2 [9] [8] rfl⟩

/-- C6: for heights at least 1 (and a context derivable without the
initial-height nil-Finalize panic), a Middleware validation error yields a
reject decision as a successful response; across all inputs, the call
returns an error only for the height-below-1 precondition violation. -/
theorem c6_process_reject_not_failure (s : Service)
    (req : ProcessProposalRequest) (mw : Except String ProposalStatus)
    (hh : 1 ≤ req.height)
    (hctx : s.finalizeBlockState ≠ none ∨ req.height ≠ s.initialHeight) :
    (∀ e, mw = .error e → s.ProcessProposal req mw = .response .reject) ∧
    (∀ (t : Service) (req2 : ProcessProposalRequest)
        (mw2 : Except String ProposalStatus) (e : FinalizeHeightError),
      t.ProcessProposal req2 mw2 = .failure e →
        req2.height < 1 ∧ e = .invalidHeight req2.height) := by
  have hresets : ∀ (t : Service) (h2 : Int),
      t.finalizeBlockState ≠ none ∨ h2 ≠ t.initialHeight →
      (t.processResets h2).getContextForProposal h2 = .ok := by
    intro t h2 hc
    simp only [Service.processResets]
    split
    · exact getContextForProposal_ok _ _ (.inl (by simp))
    · exact getContextForProposal_ok _ _ (by simpa using hc)
  constructor
  · intro e he
    unfold Service.ProcessProposal
    rw [if_neg (by omega), hresets s req.height hctx, he]
  · intro t req2 mw2 e hfail
    by_cases hl : req2.height < 1
    · refine ⟨hl, ?_⟩
      simp [Service.ProcessProposal, hl] at hfail
      simp [hfail]
    · exfalso
      unfold Service.ProcessProposal at hfail
      rw [if_neg hl] at hfail
      cases hc : (t.processResets req2.height).getContextForProposal req2.height <;>
        rw [hc] at hfail <;> cases mw2 <;> simp at hfail

/-- Witness for C6: a failing Middleware validation is answered with a
reject decision. -/
theorem c6_process_reject_not_failure_witness :
    liveSvc5.ProcessProposal { height := 6, txs := [] } (.error "bad block") =
      .response .reject :=
  (c6_process_reject_not_failure liveSvc5 { height := 6, txs := [] }
    (.error "bad block") (by decide) (.inl (by decide))).1 "bad block" rfl

/-- Inserting keeps the length. -/
theorem insertVal_length (a : ValidatorUpdate) (l : List ValidatorUpdate) :
    (insertVal a l).length = l.length + 1 := by
  induction l with
  | nil => rfl
  | cons b bs ih =>
    unfold insertVal
    split
    · rfl
    · simp [List.length_cons, ih]

/-- The canonical sort keeps the length. -/
theorem sortValidators_length (l : List ValidatorUpdate) :
    (sortValidators l).length = l.length := by
  induction l with
  | nil => rfl
  | cons a as ih => simp [sortValidators, insertVal_length, ih]

/-- The element-wise comparison accepts a list against itself. -/
theorem firstValidatorMismatch_refl (l : List ValidatorUpdate) :
    firstValidatorMismatch l l = none := by
  induction l with
  | nil => rfl
  | cons a as ih => simp [firstValidatorMismatch, ih]

/-- On lists of equal length, the element-wise comparison accepts exactly
equal lists. -/
theorem firstValidatorMismatch_none_iff (as bs : List ValidatorUpdate)
    (hlen : as.length = bs.length) :
    firstValidatorMismatch as bs = none ↔ as = bs := by
  induction as generalizing bs with
  | nil =>
    cases bs with
    | nil => simp [firstValidatorMismatch]
    | cons b bs2 => simp at hlen
  | cons a as2 ih =>
    cases bs with
    | nil => simp at hlen
    | cons b bs2 =>
      simp only [List.length_cons, Nat.add_right_cancel_iff] at hlen
      unfold firstValidatorMismatch
      split_ifs with hp hk ht
      · simp only [reduceCtorEq, false_iff]
        intro hcontra
        cases hcontra
        exact hp rfl
      · simp only [reduceCtorEq, false_iff]
        intro hcontra
        cases hcontra
        exact hk rfl
      · simp only [reduceCtorEq, false_iff]
        intro hcontra
        cases hcontra
        exact ht rfl
      · rw [ih bs2 hlen]
        constructor
        · intro heq
          rw [heq]
          cases a
          cases b
          simp_all
        · intro heq
          cases heq
          rfl

/-- A mismatch reported by the element-wise comparison is one of the three
field mismatches. -/
theorem firstValidatorMismatch_mem (as bs : List ValidatorUpdate)
    (e : InitChainError) (h : firstValidatorMismatch as bs = some e) :
    e = .mismatchedPower ∨ e = .mismatchedPubKeyBytes ∨ e = .mismatchedPubKeyTypes := by
  induction as generalizing bs with
  | nil =>
    unfold firstValidatorMismatch at h
    exact Option.noConfusion h
  | cons a as2 ih =>
    cases bs with
    | nil =>
      unfold firstValidatorMismatch at h
      exact Option.noConfusion h
    | cons b bs2 =>
      unfold firstValidatorMismatch at h
      split_ifs at h with hp hk ht
      · cases h; exact Or.inl rfl
      · cases h; exact Or.inr (Or.inl rfl)
      · cases h; exact Or.inr (Or.inr rfl)
      · exact ih bs2 h

/-- C7: with a non-empty expected validator set supplied, InitChain passes
the cross-check exactly when the canonically sorted expected set equals
the genesis-computed set element-wise; a count mismatch or an element-wise
mismatch in power, key bytes or key type fails the call, and no failure
mutates the committed store. -/
theorem c7_initchain_validator_crosscheck (s : Service)
    (req : InitChainRequest) (resVals : List ValidatorUpdate)
    (hcid : req.chainId = s.chainID) (hne : req.validators ≠ []) :
    ((s.InitChain req (.ok resVals)).1 = .ok resVals ↔
      sortValidators req.validators = resVals) ∧
    (req.validators.length ≠ resVals.length →
      (s.InitChain req (.ok resVals)).1 =
        .error (.validatorCountMismatch req.validators.length resVals.length)) ∧
    (req.validators.length = resVals.length →
      sortValidators req.validators ≠ resVals →
      ((s.InitChain req (.ok resVals)).1 = .error .mismatchedPower ∨
       (s.InitChain req (.ok resVals)).1 = .error .mismatchedPubKeyBytes ∨
       (s.InitChain req (.ok resVals)).1 = .error .mismatchedPubKeyTypes)) ∧
    ((s.InitChain req (.ok resVals)).2.sm.latestVersion = s.sm.latestVersion ∧
     (s.InitChain req (.ok resVals)).2.sm.available = s.sm.available) := by
  have hlen0 : req.validators.length ≠ 0 := by
    intro h0
    exact hne (List.length_eq_zero.mp h0)
  have hfst : (s.InitChain req (.ok resVals)).1 =
      (match checkValidators req.validators resVals with
       | some e => .error e
       | none => .ok resVals) := by
    unfold Service.InitChain
    rw [if_neg (by simp [hcid])]
    cases hcv : checkValidators req.validators resVals <;> simp [hcv]
  refine ⟨?_, ?_, ?_, ?_⟩
  · rw [hfst]
    constructor
    · intro hok
      by_cases hl : req.validators.length = resVals.length
      · unfold checkValidators at hok
        rw [if_neg hlen0, if_neg (by omega)] at hok
        have hsl : (sortValidators req.validators).length = resVals.length := by
          rw [sortValidators_length]; exact hl
        cases hcv : firstValidatorMismatch (sortValidators req.validators) resVals with
        | none => exact (firstValidatorMismatch_none_iff _ _ hsl).mp hcv
        | some e => rw [hcv] at hok; exact Except.noConfusion hok
      · unfold checkValidators at hok
        rw [if_neg hlen0, if_pos (by omega)] at hok
        exact Except.noConfusion hok
    · intro hsort
      have hl : req.validators.length = resVals.length := by
        rw [← hsort, sortValidators_length]
      unfold checkValidators
      rw [if_neg hlen0, if_neg (by omega), hsort, firstValidatorMismatch_refl]
  · intro hlne
    rw [hfst]
    unfold checkValidators
    rw [if_neg hlen0, if_pos hlne]
  · intro hl hsne
    have hsl : (sortValidators req.validators).length = resVals.length := by
      rw [sortValidators_length]; exact hl
    cases hcv : firstValidatorMismatch (sortValidators req.validators) resVals with
    | none => exact absurd ((firstValidatorMismatch_none_iff _ _ hsl).mp hcv) hsne
    | some e =>
      have hmem := firstValidatorMismatch_mem _ _ e hcv
      have : (s.InitChain req (.ok resVals)).1 = .error e := by
        rw [hfst]
        unfold checkValidators
        rw [if_neg hlen0, if_neg (by omega), hcv]
      rcases hmem with h1 | h2 | h3
      · exact Or.inl (by rw [this, h1])
      · exact Or.inr (Or.inl (by rw [this, h2]))
      · exact Or.inr (Or.inr (by rw [this, h3]))
  · unfold Service.InitChain
    rw [if_neg (by simp [hcid])]
    cases hcv : checkValidators req.validators resVals <;>
      split_ifs <;> simp [hcv]

/-- Witness for C7: a matching singleton set passes; a doubled set fails
with the count mismatch. -/
theorem c7_initchain_validator_crosscheck_witness :
    (liveSvc5.InitChain
        { chainId := "beacon-2061", initialHeight := 1,
          validators := [{ power := 10, pubKeyBytes := [1, 2], pubKeyType := "bls12_381" }],
          appStateBytes := [] }
        (.ok [{ power := 10, pubKeyBytes := [1, 2], pubKeyType := "bls12_381" }])).1 =
      .ok [{ power := 10, pubKeyBytes := [1, 2], pubKeyType := "bls12_381" }] ∧
    (liveSvc5.InitChain
        { chainId := "beacon-2061", initialHeight := 1,
          validators := [{ power := 10, pubKeyBytes := [1, 2], pubKeyType := "bls12_381" }],
          appStateBytes := [] }
        (.ok [{ power := 10, pubKeyBytes := [1, 2], pubKeyType := "bls12_381" },
              { power := 11, pubKeyBytes := [3], pubKeyType := "bls12_381" }])).1 =
      .error (.validatorCountMismatch 1 2) :=
  ⟨(c7_initchain_validator_crosscheck liveSvc5
      { chainId := "beacon-2061", initialHeight := 1,
        validators := [{ power := 10, pubKeyBytes := [1, 2], pubKeyType := "bls12_381" }],
        appStateBytes := [] }
      [{ power := 10, pubKeyBytes := [1, 2], pubKeyType := "bls12_381" }]
      rfl (by decide)).1.mpr (by decide),
   (c7_initchain_validator_crosscheck liveSvc5
      { chainId := "beacon-2061", initialHeight := 1,
        validators := [{ power := 10, pubKeyBytes := [1, 2], pubKeyType := "bls12_381" }],
        appStateBytes := [] }
      [{ power := 10, pubKeyBytes := [1, 2], pubKeyType := "bls12_381" },
       { power := 11, pubKeyBytes := [3], pubKeyType := "bls12_381" }]
      rfl (by decide)).2.1 (by decide)⟩

/-- C8: whenever FinalizeBlock passes its height validation and the
Middleware succeeds, every raw transaction of the request is recorded as a
non-fatal "skip decoding" result, the block is not aborted on account of
any transaction, and the response holds exactly one result per raw
transaction. -/
theorem c8_finalize_skips_all_txs (s : Service) (req : FinalizeBlockRequest)
    (vals : List ValidatorUpdate)
    (hok : s.validateFinalizeBlockHeight req.height = .ok ()) :
    ∃ resp, s.FinalizeBlock req (.ok vals) = .ok resp ∧
      resp.txResults = req.txs.map (fun _ => skipTxResult) ∧
      resp.txResults.length = req.txs.length ∧
      ∀ r ∈ resp.txResults, r = skipTxResult := by
  refine ⟨{ txResults := req.txs.map (fun _ => skipTxResult), validatorUpdates := vals,
            consensusParamUpdates := s.paramStore, appHash := s.sm.workingHashVal },
          ?_, rfl, by simp, ?_⟩
  · unfold Service.FinalizeBlock Service.internalFinalizeBlock Service.workingHash
    rw [hok]
    by_cases hf : s.finalizeBlockState = none <;> simp [hf]
  · intro r hr
    rcases List.mem_map.mp hr with ⟨a, ha, hra⟩
    exact hra.symm

/-- Witness for C8 at a concrete block of two undecodable transactions. -/
theorem c8_finalize_skips_all_txs_witness :
    ∃ resp, liveSvc5.FinalizeBlock { height := 6, txs := [[222], [173]] } (.ok []) = .ok resp ∧
      resp.txResults = ([[222], [173]] : List (List Nat)).map (fun _ => skipTxResult) ∧
      resp.txResults.length = ([[222], [173]] : List (List Nat)).length ∧
      ∀ r ∈ resp.txResults, r = skipTxResult :=
  c8_finalize_skips_all_txs liveSvc5 { height := 6, txs := [[222], [173]] } [] (by decide)

end BeaconKit
